import Mathlib

/-!
Verification of the `agstack/field-carbon-model` repository (Terrestrial Carbon
Flux model).  The Python sources under `src/fieldcarb` and `src/agstack` are
shallowly embedded below.  Conventions of the embedding:

* Floating-point scalars are modelled as `Val := Option ℚ`: `some q` is the
  real number `q`, `none` models IEEE NaN.  Arithmetic propagates `none`
  exactly as IEEE arithmetic propagates NaN; comparisons with `none` are
  `false`, as in IEEE.  Infinities are not modelled: division of reals uses
  rational division (with Lean's `q / 0 = 0` convention); the places where
  the claims are settled never divide by zero on the real path.
* NumPy arrays are lists: a cross-sectional per-pixel array is `List Val`,
  a longitudinal series is time-major, `List (List Val)` (T × N), which
  corresponds to the `.swapaxes(0, 1)` form the Python code itself uses for
  its per-day loops.  Elementwise NumPy operations become `List.zipWith`.
* `np.exp` and `np.log` are transcendental; the embedding is parameterized by
  functions `ex lg : ℚ → ℚ` standing for them.  None of the claims below
  depends on analytic properties of `exp`/`log`.
* Python `assert` failures (fatal errors) are `Except.error`.
-/

/-- Scalar value of the embedding: `some q` is a real (finite float) value,
`none` models IEEE NaN. -/
abbrev Val := Option ℚ

/-- Addition; NaN propagates (as in IEEE). -/
def vadd : Val → Val → Val
  | some a, some b => some (a + b)
  | _, _ => none

/-- Subtraction; NaN propagates. -/
def vsub : Val → Val → Val
  | some a, some b => some (a - b)
  | _, _ => none

/-- Multiplication; NaN propagates. -/
def vmul : Val → Val → Val
  | some a, some b => some (a * b)
  | _, _ => none

/-- Division; NaN propagates.  Division by zero yields `some 0` under Lean's
rational-division convention (IEEE would give ±inf; infinities are not
modelled, and no claim is settled on a zero-denominator real input). -/
def vdiv : Val → Val → Val
  | some a, some b => some (a / b)
  | _, _ => none

/-- Strict less-than; any comparison with NaN is `false` (as in IEEE). -/
def vlt : Val → Val → Bool
  | some a, some b => a < b
  | _, _ => false

/-- Greater-or-equal; any comparison with NaN is `false`. -/
def vge : Val → Val → Bool
  | some a, some b => b ≤ a
  | _, _ => false

/-- Strict greater-than; any comparison with NaN is `false`. -/
def vgt : Val → Val → Bool
  | some a, some b => b < a
  | _, _ => false

/-- Equality test; any comparison with NaN is `false` (IEEE `NaN == x` is
false). -/
def veq : Val → Val → Bool
  | some a, some b => a = b
  | _, _ => false

/-- Lift a real transcendental function (the embedding parameter standing for
`np.exp` or `np.log`) to `Val`; NaN propagates. -/
def vlift (f : ℚ → ℚ) : Val → Val
  | some a => some (f a)
  | none => none

@[simp] theorem vadd_some (a b : ℚ) : vadd (some a) (some b) = some (a + b) := rfl
@[simp] theorem vsub_some (a b : ℚ) : vsub (some a) (some b) = some (a - b) := rfl
@[simp] theorem vmul_some (a b : ℚ) : vmul (some a) (some b) = some (a * b) := rfl
@[simp] theorem vdiv_some (a b : ℚ) : vdiv (some a) (some b) = some (a / b) := rfl
@[simp] theorem vadd_none_left (b : Val) : vadd none b = none := rfl
@[simp] theorem vsub_none_left (b : Val) : vsub none b = none := rfl
@[simp] theorem vmul_none_left (b : Val) : vmul none b = none := rfl

theorem vadd_none_right (a : Val) : vadd a none = none := by cases a <;> rfl

theorem vsub_none_right (a : Val) : vsub a none = none := by cases a <;> rfl

theorem vmul_none_right (a : Val) : vmul a none = none := by cases a <;> rfl

theorem vmul_comm (a b : Val) : vmul a b = vmul b a := by
  cases a <;> cases b <;> simp [vmul, mul_comm]

theorem vmul_assoc (a b c : Val) : vmul (vmul a b) c = vmul a (vmul b c) := by
  cases a <;> cases b <;> cases c <;> simp [vmul, mul_assoc]

theorem vadd_zero_right (a : Val) : vadd a (some 0) = a := by
  cases a <;> simp [vadd]

/-! ## `fieldcarb/utils.py` -/

/-- Embeds `arrhenius` (src/fieldcarb/utils.py lines 8–42): the Arrhenius
temperature response, `exp(beta0 * (1/beta1 - 1/(tsoil - beta2)))`, with the
output constrained to `[0, 1]` by
`np.where(y0 > 1, 1, np.where(y0 < 0, 0, y0))`.  The Python defaults are
`beta1 = 66.02`, `beta2 = 227.13`; call sites pass them explicitly here.
`ex` stands for `np.exp`. -/
def arrhenius (ex : ℚ → ℚ) (tsoil beta0 beta1 beta2 : Val) : Val :=
  let a := vdiv (some 1) beta1
  let b := vdiv (some 1) (vsub tsoil beta2)
  let y0 := vlift ex (vmul beta0 (vsub a b))
  if vgt y0 (some 1) then some 1 else if vlt y0 (some 0) then some 0 else y0

/-- Pointwise body of the default (increasing) ramp returned by
`linear_constraint` (src/fieldcarb/utils.py lines 81–82):
`np.where(x >= xmax, 1, np.where(x < xmin, 0, (x - xmin) / (xmax - xmin)))`. -/
def lcStandard (xmin xmax x : Val) : Val :=
  if vge x xmax then some 1
  else if vlt x xmin then some 0
  else vdiv (vsub x xmin) (vsub xmax xmin)

/-- Pointwise body of the "reversed" ramp (src/fieldcarb/utils.py lines 76–78):
`np.where(x >= xmax, 0, np.where(x < xmin, 1, 1 - (x - xmin)/(xmax - xmin)))`. -/
def lcReversed (xmin xmax x : Val) : Val :=
  if vge x xmax then some 0
  else if vlt x xmin then some 1
  else vsub (some 1) (vdiv (vsub x xmin) (vsub xmax xmin))

/-- Pointwise body of the "binary" ramp (src/fieldcarb/utils.py line 80):
`np.where(x == 1, xmax, xmin)`. -/
def lcBinary (xmin xmax x : Val) : Val :=
  if veq x (some 1) then xmax else xmin

/-- Three-list `zipWith`, used for broadcasting per-pixel ramp bounds against
a per-pixel input array. -/
def zipWith3 (f : α → β → γ → δ) : List α → List β → List γ → List δ
  | a :: as, b :: bs, c :: cs => f a b c :: zipWith3 f as bs cs
  | _, _, _ => []

/-- Embeds `linear_constraint` (src/fieldcarb/utils.py lines 45–82).  Bounds
may be per-pixel arrays (here: lists); the guard is the source's
`assert form == 'binary' or np.any(xmax >= xmin)` — note `np.any`, which
passes as soon as ONE component satisfies `xmax >= xmin`.  The assert failure
is an `Except.error`; otherwise the pointwise ramp of the requested form is
returned, broadcasting the bounds against the input array. -/
def linear_constraint (xmin xmax : List Val) (form : Option String) :
    Except String (List Val → List Val) :=
  if form = some "binary" ∨ (List.zip xmax xmin).any (fun p => vge p.1 p.2) then
    if form = some "reversed" then
      Except.ok (fun x => zipWith3 lcReversed xmin xmax x)
    else if form = some "binary" then
      Except.ok (fun x => zipWith3 lcBinary xmin xmax x)
    else
      Except.ok (fun x => zipWith3 lcStandard xmin xmax x)
  else
    Except.error "xmax must be greater than/ equal to xmin"

/-- Boolean success test for `Except` results. -/
def isOkB : Except String α → Bool
  | Except.ok _ => true
  | Except.error _ => false

/-! ### Claims C7, C8, C9 -/

/-- Claim C9: for all (real) inputs `tsoil` and all coefficients, `arrhenius`
returns a value in the closed interval `[0, 1]`: raw exponential values above
1 are truncated to 1 and values below 0 are truncated to 0.  The statement
quantifies over the function `ex` standing for `np.exp`, so it holds whatever
the raw exponential evaluates to. -/
theorem arrhenius_mem_unit_interval (ex : ℚ → ℚ) (t b0 b1 b2 : ℚ) :
    ∃ r : ℚ, arrhenius ex (some t) (some b0) (some b1) (some b2) = some r ∧
      0 ≤ r ∧ r ≤ 1 := by
  unfold arrhenius
  simp only [vdiv_some, vsub_some, vmul_some, vlift]
  set y := ex (b0 * (1 / b1 - 1 / (t - b2))) with hy
  by_cases h1 : vgt (some y) (some 1) = true
  · exact ⟨1, by simp [h1], by norm_num⟩
  · by_cases h0 : vlt (some y) (some 0) = true
    · exact ⟨0, by simp [h1, h0], by norm_num⟩
    · refine ⟨y, by simp [h1, h0], ?_, ?_⟩
      · simpa [vlt, not_lt] using h0
      · simpa [vgt, not_lt] using h1

@[simp] theorem vge_some (a b : ℚ) : vge (some a) (some b) = decide (b ≤ a) := rfl
@[simp] theorem vlt_some (a b : ℚ) : vlt (some a) (some b) = decide (a < b) := rfl
@[simp] theorem vgt_some (a b : ℚ) : vgt (some a) (some b) = decide (b < a) := rfl
@[simp] theorem veq_some (a b : ℚ) : veq (some a) (some b) = decide (a = b) := rfl

theorem lcStandard_eval (a b x : ℚ) :
    lcStandard (some a) (some b) (some x) =
      some (if b ≤ x then 1 else if x < a then 0 else (x - a) / (b - a)) := by
  unfold lcStandard
  simp only [vge_some, vlt_some, vdiv_some, vsub_some, decide_eq_true_eq]
  split_ifs <;> rfl

theorem lcReversed_eval (a b x : ℚ) :
    lcReversed (some a) (some b) (some x) =
      some (if b ≤ x then 0 else if x < a then 1 else 1 - (x - a) / (b - a)) := by
  unfold lcReversed
  simp only [vge_some, vlt_some, vdiv_some, vsub_some, decide_eq_true_eq]
  split_ifs <;> rfl

theorem lcStandard_bounds (a b x : ℚ) (_hab : a ≤ b) :
    ∃ p, lcStandard (some a) (some b) (some x) = some p ∧ 0 ≤ p ∧ p ≤ 1 := by
  rw [lcStandard_eval]
  refine ⟨_, rfl, ?_, ?_⟩ <;> split_ifs with h1 h2 <;> try norm_num
  · push_neg at h1 h2
    exact div_nonneg (by linarith) (by linarith)
  · push_neg at h1 h2
    have hb : a < b := lt_of_le_of_lt h2 h1
    rw [div_le_one (by linarith)]; linarith

theorem lcStandard_mono (a b x y : ℚ) (_hab : a ≤ b) (hxy : x ≤ y) (p q : ℚ)
    (hp : lcStandard (some a) (some b) (some x) = some p)
    (hq : lcStandard (some a) (some b) (some y) = some q) : p ≤ q := by
  rw [lcStandard_eval] at hp hq
  rw [Option.some.injEq] at hp hq
  subst hp; subst hq
  by_cases h1 : b ≤ x
  · rw [if_pos h1, if_pos (le_trans h1 hxy)]
  · rw [if_neg h1]
    by_cases h2 : x < a
    · rw [if_pos h2]
      by_cases h3 : b ≤ y
      · rw [if_pos h3]; norm_num
      · rw [if_neg h3]
        by_cases h4 : y < a
        · rw [if_pos h4]
        · rw [if_neg h4]; push_neg at h3 h4
          exact div_nonneg (by linarith) (by linarith)
    · rw [if_neg h2]; push_neg at h1 h2
      have hb : a < b := lt_of_le_of_lt h2 h1
      by_cases h3 : b ≤ y
      · rw [if_pos h3, div_le_one (by linarith)]; linarith
      · rw [if_neg h3, if_neg (by push_neg; linarith : ¬ y < a)]
        exact div_le_div_of_nonneg_right (by linarith) (by linarith)

theorem lcReversed_sub_standard (a b x : ℚ) :
    lcReversed (some a) (some b) (some x) =
      vsub (some 1) (lcStandard (some a) (some b) (some x)) := by
  rw [lcStandard_eval, lcReversed_eval, vsub_some]
  split_ifs <;> norm_num

/-- Claim C8: for valid bounds (`xmax ≥ xmin`) the function returned by
`linear_constraint` maps every input into `[0, 1]`, is monotone non-decreasing
in the standard form and non-increasing in the reversed form; the binary form
returns exactly `xmax` when the input equals 1 and exactly `xmin` otherwise.
`lcStandard`, `lcReversed`, `lcBinary` are the pointwise bodies of the three
returned ramp functions; the final conjunct ties `lcStandard` to the function
actually returned by `linear_constraint`. -/
theorem linear_constraint_ramp_props (a b x y : ℚ) (hab : a ≤ b) (hxy : x ≤ y) :
    (∃ p, lcStandard (some a) (some b) (some x) = some p ∧ 0 ≤ p ∧ p ≤ 1) ∧
    (∃ p, lcReversed (some a) (some b) (some x) = some p ∧ 0 ≤ p ∧ p ≤ 1) ∧
    (∀ p q, lcStandard (some a) (some b) (some x) = some p →
        lcStandard (some a) (some b) (some y) = some q → p ≤ q) ∧
    (∀ p q, lcReversed (some a) (some b) (some x) = some p →
        lcReversed (some a) (some b) (some y) = some q → q ≤ p) ∧
    (∀ u v w : Val, lcBinary u v (some 1) = v ∧ (w ≠ some 1 → lcBinary u v w = u)) ∧
    (∃ f, linear_constraint [some a] [some b] none = Except.ok f ∧
        f [some x] = [lcStandard (some a) (some b) (some x)]) := by
  obtain ⟨p₀, hp₀, hp₀0, hp₀1⟩ := lcStandard_bounds a b x hab
  refine ⟨⟨p₀, hp₀, hp₀0, hp₀1⟩, ?_, fun p q hp hq => lcStandard_mono a b x y hab hxy p q hp hq,
    ?_, ?_, ?_⟩
  · refine ⟨1 - p₀, ?_, by linarith, by linarith⟩
    rw [lcReversed_sub_standard, hp₀, vsub_some]
  · intro p q hp hq
    rw [lcReversed_sub_standard] at hp hq
    obtain ⟨px, hpx, _, _⟩ := lcStandard_bounds a b x hab
    obtain ⟨py, hpy, _, _⟩ := lcStandard_bounds a b y hab
    rw [hpx, vsub_some, Option.some.injEq] at hp
    rw [hpy, vsub_some, Option.some.injEq] at hq
    have := lcStandard_mono a b x y hab hxy px py hpx hpy
    linarith [hp, hq]
  · intro u v w
    constructor
    · simp [lcBinary]
    · intro hw
      cases w with
      | none => rfl
      | some q =>
        have hq : ¬ q = 1 := fun h => hw (by rw [h])
        simp [lcBinary, hq]
  · have hlc : linear_constraint [some a] [some b] none =
        Except.ok (fun x => zipWith3 lcStandard [some a] [some b] x) := by
      unfold linear_constraint
      rw [if_pos ?_]
      · rw [if_neg (by simp), if_neg (by simp)]
      · right
        simp [List.any, vge_some, hab]
    exact ⟨_, hlc, rfl⟩

/-- Witness for C8 at the concrete bounds `[0, 1]` and inputs `1/2 ≤ 3/4`. -/
theorem linear_constraint_ramp_props_witness :
    (0:ℚ) ≤ 1 ∧ (1/2:ℚ) ≤ 3/4 ∧
    (∃ p, lcStandard (some (0:ℚ)) (some 1) (some (1/2)) = some p ∧ 0 ≤ p ∧ p ≤ 1) :=
  ⟨by norm_num, by norm_num,
    (linear_constraint_ramp_props 0 1 (1/2) (3/4) (by norm_num) (by norm_num)).1⟩

/-- Counterexample for claim C7: with per-pixel array bounds
`xmin = [0, 5]`, `xmax = [1, 0]` the second component violates
`xmax ≥ xmin`, yet `linear_constraint` does NOT abort (the source guard is
`np.any(xmax >= xmin)`, which passes because the FIRST component satisfies
it) — it returns a ramp function. -/
theorem linear_constraint_mixed_bounds_no_error :
    isOkB (linear_constraint [some 0, some 5] [some 1, some 0] none) = true := by
  rfl

/-- Claim C7 (amended): outside binary mode the call aborts exactly when NO
component of the bounds satisfies `xmax ≥ xmin` (the guard is `np.any`); in
particular, for scalar bounds with `xmax < xmin` the call does abort rather
than return a ramp function. -/
theorem linear_constraint_error_iff :
    (∀ (xmin xmax : List Val) (form : Option String),
      isOkB (linear_constraint xmin xmax form) = false ↔
        (form ≠ some "binary" ∧
          (List.zip xmax xmin).any (fun p => vge p.1 p.2) = false)) ∧
    (∀ a b : ℚ, b < a → isOkB (linear_constraint [some a] [some b] none) = false) := by
  have main : ∀ (xmin xmax : List Val) (form : Option String),
      isOkB (linear_constraint xmin xmax form) = false ↔
        (form ≠ some "binary" ∧
          (List.zip xmax xmin).any (fun p => vge p.1 p.2) = false) := by
    intro xmin xmax form
    unfold linear_constraint
    by_cases h : form = some "binary" ∨
        ((List.zip xmax xmin).any (fun p => vge p.1 p.2) = true)
    · rw [if_pos h]
      have hok : isOkB (if form = some "reversed" then
          Except.ok (fun x => zipWith3 lcReversed xmin xmax x)
        else if form = some "binary" then
          Except.ok (fun x => zipWith3 lcBinary xmin xmax x)
        else
          Except.ok (fun x => zipWith3 lcStandard xmin xmax x)) = true := by
        split_ifs <;> rfl
      rw [hok]
      simp only [Bool.true_eq_false, false_iff]
      intro ⟨hb, hany⟩
      rcases h with h | h
      · exact hb h
      · rw [hany] at h; exact Bool.false_ne_true h
    · rw [if_neg h]
      push_neg at h
      simp only [isOkB, true_iff]
      exact ⟨h.1, Bool.not_eq_true _ |>.mp h.2⟩
  refine ⟨main, fun a b hba => ?_⟩
  rw [main]
  refine ⟨by simp, ?_⟩
  simp [List.any, vge_some, not_le.mpr hba]

/-- Witness for the amended C7 at scalar bounds `xmin = 1 > xmax = 0`. -/
theorem linear_constraint_error_iff_witness :
    (0:ℚ) < 1 ∧ isOkB (linear_constraint [some 1] [some 0] none) = false :=
  ⟨by norm_num, linear_constraint_error_iff.2 1 0 (by norm_num)⟩

/-! ## Model data (`TCF.__init__` results as used by the flux methods)

`self.params` holds the vectorized parameters: one per-pixel list for each
required parameter and a 3 × N list of lists for `decay_rates` (one decay
rate per SOC pool per pixel).  Parameter values are `Val` because the
parameter tables may carry NaN rows (e.g. the unused PFT 0 row). -/

structure VParams where
  LUE : List Val
  tmin0 : List Val
  tmin1 : List Val
  vpd0 : List Val
  vpd1 : List Val
  smrz0 : List Val
  smrz1 : List Val
  ft0 : List Val
  CUE : List Val
  tsoil : List Val
  smsf0 : List Val
  smsf1 : List Val
  decay_rates : List (List Val)
  f_structural : List Val
  f_metabolic : List Val
deriving DecidableEq

/-- A `TCF` model instance as the flux methods see it: vectorized parameters,
the optional SOC state `state.soc` (3 pools × N pixels) and the optional
litterfall constant `constants.litterfall`. -/
structure TCF where
  params : VParams
  soc : Option (List (List Val))
  litterfall : Option (List Val)
deriving DecidableEq

/-- Elementwise binary operation on two time-major (T × N) series. -/
def zipSeries (f : Val → Val → Val) : List (List Val) → List (List Val) → List (List Val) :=
  List.zipWith (List.zipWith f)

/-- Broadcast of a per-pixel parameter array against a time-major series
(NumPy broadcasting of an (N × 1) parameter against (N × T) data). -/
def broadcastParam (f : Val → Val → Val) (series : List (List Val)) (p : List Val) :
    List (List Val) :=
  series.map (fun row => List.zipWith f row p)

/-- Four-list `zipWith`. -/
def zipWith4 (f : α → β → γ → δ → ε) : List α → List β → List γ → List δ → List ε
  | a :: as, b :: bs, c :: cs, d :: ds => f a b c d :: zipWith4 f as bs cs ds
  | _, _, _, _ => []

/-! ## Per-day respiration and SOC update (forward-run loop bodies) -/

/-- Embeds the per-pool respiration computed inside the forward-run loop
(src/fieldcarb/models.py lines 246–249 and src/agstack/models.py lines
382–385): `rh_t[pool] = decay_rates[pool] * wmult[t] * tmult[t] * soc[pool]`,
for each of the three pools (the Python loop runs over the rows of `soc`). -/
def rh_rows (p : VParams) (w t : List Val) (soc : List (List Val)) : List (List Val) :=
  List.zipWith
    (fun krow srow => zipWith4 (fun k wv tv s => vmul (vmul (vmul k wv) tv) s) krow w t srow)
    p.decay_rates soc

/-- Embeds the post hoc humification adjustment
(src/fieldcarb/models.py line 259, src/agstack/models.py line 396 and the
identical line in the `rh` methods): `rh[1, ...] = rh[1, ...] * (1 -
f_structural)`, the structural-pool row reduced by `1 - f_structural`. -/
def rh_adjust (p : VParams) (rh : List (List Val)) : List (List Val) :=
  match rh with
  | [r0, r1, r2] =>
      [r0, List.zipWith (fun r fs => vmul r (vsub (some 1) fs)) r1 p.f_structural, r2]
  | other => other

/-- Embeds the SOC pool deltas (src/fieldcarb/models.py lines 251–253,
src/agstack/models.py lines 387–389):
`dc1 = litter * f_metabolic - rh_t[0]`,
`dc2 = litter * (1 - f_metabolic) - rh_t[1]`,
`dc3 = f_structural * rh_t[1] - rh_t[2]`. -/
def fc_deltas (p : VParams) (litter : List Val) (rh : List (List Val)) : List (List Val) :=
  match rh with
  | [r0, r1, r2] =>
      [List.zipWith vsub (List.zipWith vmul litter p.f_metabolic) r0,
       List.zipWith vsub
         (List.zipWith (fun l fm => vmul l (vsub (some 1) fm)) litter p.f_metabolic) r1,
       List.zipWith vsub (List.zipWith vmul p.f_structural r1) r2]
  | other => other

/-- One daily step of `fieldcarb`'s `TCF.forward_run`
(src/fieldcarb/models.py lines 246–259): per-pool respiration, SOC deltas
applied in place WITHOUT any NaN guard (`soc[i] += delta`), and the post hoc
humification adjustment of the recorded structural-pool respiration.
Returns the updated SOC state and the recorded (adjusted) `rh_t`. -/
def fc_step (p : VParams) (litter w t : List Val) (soc : List (List Val)) :
    List (List Val) × List (List Val) :=
  let rh_t := rh_rows p w t soc
  let dcs := fc_deltas p litter rh_t
  let soc' := List.zipWith (fun srow dcrow => List.zipWith vadd srow dcrow) soc dcs
  (soc', rh_adjust p rh_t)

/-- Embeds `delta[np.isnan(delta)] = 0` (src/agstack/models.py line 391):
NaN entries of a delta are replaced by zero before being applied. -/
def nanGuard (v : Val) : Val :=
  match v with
  | none => some 0
  | some q => some q

/-- One daily step of `agstack`'s `TCF.forward_run`
(src/agstack/models.py lines 382–396): identical to `fc_step` except that
each delta passes through the NaN guard (`delta[np.isnan(delta)] = 0`)
before being added to the SOC state. -/
def ag_step (p : VParams) (litter w t : List Val) (soc : List (List Val)) :
    List (List Val) × List (List Val) :=
  let rh_t := rh_rows p w t soc
  let dcs := fc_deltas p litter rh_t
  let soc' := List.zipWith
    (fun srow dcrow => List.zipWith (fun s dc => vadd s (nanGuard dc)) srow dcrow) soc dcs
  (soc', rh_adjust p rh_t)

/-- Scalar (single-pixel) reading of the `fieldcarb` forward-run loop body
(src/fieldcarb/models.py lines 246–259); all the vectorized operations there
are elementwise, so this is the per-pixel computation.  Arguments:
`f_metabolic`, `f_structural`, the three per-pool decay rates, litterfall,
the day's soil-moisture and temperature multipliers, and the three SOC pools.
Returns the updated pools and the recorded (humification-adjusted) per-pool
respiration. -/
def forward_step_pix (fm fs k0 k1 k2 litter w t s0 s1 s2 : Val) :
    (Val × Val × Val) × (Val × Val × Val) :=
  let rh0 := vmul (vmul (vmul k0 w) t) s0
  let rh1 := vmul (vmul (vmul k1 w) t) s1
  let rh2 := vmul (vmul (vmul k2 w) t) s2
  let dc1 := vsub (vmul litter fm) rh0
  let dc2 := vsub (vmul litter (vsub (some 1) fm)) rh1
  let dc3 := vsub (vmul fs rh1) rh2
  ((vadd s0 dc1, vadd s1 dc2, vadd s2 dc3),
   (rh0, vmul rh1 (vsub (some 1) fs), rh2))

/-- Scalar (single-pixel) reading of the `agstack` forward-run loop body
(src/agstack/models.py lines 382–396): as `forward_step_pix` but each delta
passes through the NaN guard before being applied. -/
def ag_step_pix (fm fs k0 k1 k2 litter w t s0 s1 s2 : Val) :
    (Val × Val × Val) × (Val × Val × Val) :=
  let rh0 := vmul (vmul (vmul k0 w) t) s0
  let rh1 := vmul (vmul (vmul k1 w) t) s1
  let rh2 := vmul (vmul (vmul k2 w) t) s2
  let dc1 := vsub (vmul litter fm) rh0
  let dc2 := vsub (vmul litter (vsub (some 1) fm)) rh1
  let dc3 := vsub (vmul fs rh1) rh2
  ((vadd s0 (nanGuard dc1), vadd s1 (nanGuard dc2), vadd s2 (nanGuard dc3)),
   (rh0, vmul rh1 (vsub (some 1) fs), rh2))

/-- Sanity bridge: on a single pixel the vectorized step `fc_step` computes
exactly `forward_step_pix`. -/
theorem fc_step_singleton (fm fs k0 k1 k2 l w t s0 s1 s2 : Val)
    (p : VParams) (hk : p.decay_rates = [[k0], [k1], [k2]])
    (hfs : p.f_structural = [fs]) (hfm : p.f_metabolic = [fm]) :
    fc_step p [l] [w] [t] [[s0], [s1], [s2]] =
      (let r := forward_step_pix fm fs k0 k1 k2 l w t s0 s1 s2
       ([[r.1.1], [r.1.2.1], [r.1.2.2]], [[r.2.1], [r.2.2.1], [r.2.2.2]])) := by
  simp [fc_step, rh_rows, fc_deltas, rh_adjust, forward_step_pix, zipWith4, hk, hfs, hfm]

/-- Claim C1: carbon conservation in one forward-run daily step.  For real
(non-NaN) inputs, the sum of the three SOC pool deltas plus the recorded
(humification-adjusted) total respiration equals the litterfall input
exactly; equivalently (second conjunct), summing the deltas with the
humification transfer ignored (pool 3 receiving nothing) plus the raw total
respiration equals litterfall minus zero — i.e. the deltas-ignoring-
humification sum to litterfall minus the raw total RH.  The NaN-zeroing edge
cases excluded by the claim correspond to `none` inputs here. -/
theorem forward_step_conservation (fm fs k0 k1 k2 l w t s0 s1 s2 : ℚ) :
    (let r := forward_step_pix (some fm) (some fs) (some k0) (some k1) (some k2)
        (some l) (some w) (some t) (some s0) (some s1) (some s2)
     vadd (vadd (vadd (vsub r.1.1 (some s0)) (vsub r.1.2.1 (some s1)))
         (vsub r.1.2.2 (some s2)))
       (vadd (vadd r.2.1 r.2.2.1) r.2.2.2) = some l) ∧
    (let r := forward_step_pix (some fm) (some fs) (some k0) (some k1) (some k2)
        (some l) (some w) (some t) (some s0) (some s1) (some s2)
     vadd (vadd (vadd (vsub r.1.1 (some s0)) (vsub r.1.2.1 (some s1)))
         (vsub (some 0) r.2.2.2))
       (vadd (vadd r.2.1 (vmul (vmul (vmul (some k1) (some w)) (some t)) (some s1)))
         r.2.2.2) = some l) := by
  constructor <;>
    simp only [forward_step_pix, vmul_some, vsub_some, vadd_some, Option.some.injEq] <;>
    ring

/-- Counterexample for claim C4: in `fieldcarb`'s `forward_run`
(src/fieldcarb/models.py lines 251–255) the deltas are applied with NO NaN
guard.  With a NaN soil-moisture multiplier (e.g. from a NaN driver) the
metabolic-pool delta is NaN, and the pool value becomes NaN instead of being
left unchanged: the claim that every forward_run daily step zeroes NaN
deltas is false for this implementation. -/
theorem fc_step_nan_propagates :
    (let r := forward_step_pix (some 0.78) (some 0.5) (some 0.018) (some 0.0072)
        (some 0.000167) (some 2) none (some 1) (some 100) (some 200) (some 300)
     r.1.1 = none ∧ ¬ r.1.1 = some 100) := by
  constructor <;> decide

/-- Claim C4 (amended): in `agstack`'s `forward_run` (src/agstack/models.py
line 391) every NaN-valued SOC pool delta is replaced by zero before being
applied, so a NaN delta leaves the corresponding pool unchanged and NaN
never propagates into the SOC state; `fieldcarb`'s `forward_run` lacks this
guard and propagates NaN (see the counterexample).  The first three
conjuncts: if the delta of a pool (as computed by the loop body) is NaN, the
pool is unchanged.  The final conjunct: real pool values stay real. -/
theorem ag_step_pix_nan_guard (fm fs k0 k1 k2 l w t s0 s1 s2 : Val) :
    ((vsub (vmul l fm) (vmul (vmul (vmul k0 w) t) s0) = none →
        (ag_step_pix fm fs k0 k1 k2 l w t s0 s1 s2).1.1 = s0) ∧
     (vsub (vmul l (vsub (some 1) fm)) (vmul (vmul (vmul k1 w) t) s1) = none →
        (ag_step_pix fm fs k0 k1 k2 l w t s0 s1 s2).1.2.1 = s1) ∧
     (vsub (vmul fs (vmul (vmul (vmul k1 w) t) s1)) (vmul (vmul (vmul k2 w) t) s2) = none →
        (ag_step_pix fm fs k0 k1 k2 l w t s0 s1 s2).1.2.2 = s2)) ∧
    (∀ q0 q1 q2 : ℚ, s0 = some q0 → s1 = some q1 → s2 = some q2 →
      ∃ r0 r1 r2 : ℚ,
        (ag_step_pix fm fs k0 k1 k2 l w t s0 s1 s2).1 = (some r0, some r1, some r2)) := by
  refine ⟨⟨?_, ?_, ?_⟩, ?_⟩
  · intro h
    simp only [ag_step_pix, h, nanGuard]
    exact vadd_zero_right s0
  · intro h
    simp only [ag_step_pix, h, nanGuard]
    exact vadd_zero_right s1
  · intro h
    simp only [ag_step_pix, h, nanGuard]
    exact vadd_zero_right s2
  · intro q0 q1 q2 h0 h1 h2
    subst h0; subst h1; subst h2
    simp only [ag_step_pix]
    cases hg0 : nanGuard (vsub (vmul l fm) (vmul (vmul (vmul k0 w) t) (some q0))) with
    | none => exact absurd hg0 (by cases (vsub (vmul l fm) (vmul (vmul (vmul k0 w) t) (some q0))) <;> simp [nanGuard])
    | some g0 =>
      cases hg1 : nanGuard (vsub (vmul l (vsub (some 1) fm))
          (vmul (vmul (vmul k1 w) t) (some q1))) with
      | none => exact absurd hg1 (by cases (vsub (vmul l (vsub (some 1) fm)) (vmul (vmul (vmul k1 w) t) (some q1))) <;> simp [nanGuard])
      | some g1 =>
        cases hg2 : nanGuard (vsub (vmul fs (vmul (vmul (vmul k1 w) t) (some q1)))
            (vmul (vmul (vmul k2 w) t) (some q2))) with
        | none => exact absurd hg2 (by cases (vsub (vmul fs (vmul (vmul (vmul k1 w) t) (some q1))) (vmul (vmul (vmul k2 w) t) (some q2))) <;> simp [nanGuard])
        | some g2 =>
          exact ⟨q0 + g0, q1 + g1, q2 + g2, rfl⟩

/-- Witness for the amended C4: with a NaN soil-moisture multiplier the
metabolic delta is NaN, and the agstack step leaves the (real) pool
unchanged. -/
theorem ag_step_pix_nan_guard_witness :
    (vsub (vmul (some 2) (some (0.78:ℚ)))
        (vmul (vmul (vmul (some 0.018) none) (some 1)) (some 100)) = none) ∧
    (ag_step_pix (some 0.78) (some 0.5) (some 0.018) (some 0.0072) (some 0.000167)
        (some 2) none (some 1) (some 100) (some 200) (some 300)).1.1 = some 100 :=
  ⟨by decide,
    (ag_step_pix_nan_guard (some 0.78) (some 0.5) (some 0.018) (some 0.0072)
      (some 0.000167) (some 2) none (some 1) (some 100) (some 200) (some 300)).1.1
      (by decide)⟩

/-! ## The `rh` method (src/fieldcarb/models.py lines 375–422) -/

/-- Embeds `TCF.rh`: unpacks the two soil drivers, builds the soil-moisture
ramp from `linear_constraint(smsf0.T, smsf1.T)`, the temperature multiplier
from `arrhenius(tsoil, params.tsoil.T)` (Python defaults `beta1 = 66.02`,
`beta2 = 227.13`), computes `rh = wmult * tmult * decay_rates * soc` and
applies the humification adjustment to the structural row.  The `.T`
transposes only reshape the parameter arrays; per pixel the values are
unchanged, so they do not appear in the embedding. -/
def TCF.rh (ex : ℚ → ℚ) (m : TCF) (tsoil smsf : List Val)
    (state : Option (List (List Val))) : Except String (List (List Val)) := do
  let soc ← match state with
    | some s => pure s
    | none => match m.soc with
      | some s => pure s
      | none => Except.error "TCF instance has no SOC state"
  let f_smsf ← linear_constraint m.params.smsf0 m.params.smsf1 none
  let tmult := List.zipWith (fun ts b0 => arrhenius ex ts b0 (some 66.02) (some 227.13))
    tsoil m.params.tsoil
  let wmult := f_smsf smsf
  let rh := List.zipWith
    (fun krow srow => zipWith4 (fun wv tv k s => vmul (vmul (vmul wv tv) k) s) wmult tmult krow srow)
    m.params.decay_rates soc
  pure (rh_adjust m.params rh)

/-- The per-day respiration computation of `forward_run` for one day's
drivers (src/fieldcarb/models.py: the multiplier precomputation at lines
238–242 sliced at day `t`, the loop body at lines 246–249 and the post hoc
adjustment at line 259), packaged over the same single-day driver pair the
`rh` method takes. -/
def forward_rh_t (ex : ℚ → ℚ) (p : VParams) (tsoil smsf : List Val)
    (soc : List (List Val)) : Except String (List (List Val)) := do
  let f_smsf ← linear_constraint p.smsf0 p.smsf1 none
  let tmult := List.zipWith (fun ts b0 => arrhenius ex ts b0 (some 66.02) (some 227.13))
    tsoil p.tsoil
  let wmult := f_smsf smsf
  pure (rh_adjust p (rh_rows p wmult tmult soc))

theorem vmul4_comm (k w t s : Val) :
    vmul (vmul (vmul k w) t) s = vmul (vmul (vmul w t) k) s := by
  cases k <;> cases w <;> cases t <;> cases s <;>
    first
    | rfl
    | (simp only [vmul, Option.some.injEq]; ring)

theorem zipWith4_kwts_eq_wtks (krow w t srow : List Val) :
    zipWith4 (fun k wv tv s => vmul (vmul (vmul k wv) tv) s) krow w t srow =
      zipWith4 (fun wv tv k s => vmul (vmul (vmul wv tv) k) s) w t krow srow := by
  induction krow generalizing w t srow with
  | nil => cases w <;> cases t <;> cases srow <;> rfl
  | cons kh kt ih =>
    cases w with
    | nil => rfl
    | cons wh wt =>
      cases t with
      | nil => rfl
      | cons th tt =>
        cases srow with
        | nil => rfl
        | cons sh st =>
          simp only [zipWith4]
          rw [vmul4_comm]
          rw [ih]

theorem rh_rows_method_form (p : VParams) (w t : List Val) (soc : List (List Val)) :
    rh_rows p w t soc =
      List.zipWith
        (fun krow srow => zipWith4 (fun wv tv k s => vmul (vmul (vmul wv tv) k) s) w t krow srow)
        p.decay_rates soc := by
  unfold rh_rows
  have hf : (fun krow srow => zipWith4 (fun k wv tv s => vmul (vmul (vmul k wv) tv) s) krow w t srow) =
      (fun (krow srow : List Val) =>
        zipWith4 (fun wv tv k s => vmul (vmul (vmul wv tv) k) s) w t krow srow) := by
    funext krow srow
    exact zipWith4_kwts_eq_wtks krow w t srow
  exact congrArg (fun f => List.zipWith f p.decay_rates soc) hf

/-- Claim C2: for the same SOC state and the same single-day drivers, the
per-pool respiration computed inside `forward_run` (decay rate × moisture
multiplier × temperature multiplier × SOC, with the post hoc humification
reduction of the structural row) coincides with the 3 × N array returned by
the `rh` method — including the fatal-error behaviour when the
soil-moisture ramp bounds are invalid. -/
theorem forward_rh_eq_rh_method (ex : ℚ → ℚ) (m : TCF) (tsoil smsf : List Val)
    (soc : List (List Val)) :
    forward_rh_t ex m.params tsoil smsf soc = TCF.rh ex m tsoil smsf (some soc) := by
  unfold forward_rh_t TCF.rh
  cases hlc : linear_constraint m.params.smsf0 m.params.smsf1 none with
  | error e => rfl
  | ok f =>
    show Except.ok
        (rh_adjust m.params (rh_rows m.params (f smsf)
          (List.zipWith (fun ts b0 => arrhenius ex ts b0 (some 66.02) (some 227.13))
            tsoil m.params.tsoil) soc)) =
      Except.ok (rh_adjust m.params
        (List.zipWith
          (fun krow srow => zipWith4 (fun wv tv k s => vmul (vmul (vmul wv tv) k) s)
            (f smsf)
            (List.zipWith (fun ts b0 => arrhenius ex ts b0 (some 66.02) (some 227.13))
              tsoil m.params.tsoil) krow srow)
          m.params.decay_rates soc))
    exact congrArg (fun x => Except.ok (rh_adjust m.params x))
      (rh_rows_method_form m.params (f smsf) _ soc)

/-! ## GPP (src/fieldcarb/models.py lines 127–167 and 265–316) -/

/-- Embeds `np.nanmin` over a vector: the minimum of the non-NaN entries
(NaN if there are none). -/
def nanmin (xs : List Val) : Val :=
  xs.foldl
    (fun acc v =>
      match v with
      | none => acc
      | some q =>
        match acc with
        | none => some q
        | some a => some (min a q))
    none

/-- Per-pixel `np.nanmin(smrz0, axis = -1)` (minimum over the time axis) for
a time-major series. -/
def nanminOverTime (series : List (List Val)) : List Val :=
  (List.transpose series).map nanmin

/-- Embeds `TCF._rescale_smrz` (src/fieldcarb/models.py lines 127–167):
clip root-zone soil moisture to `[smrz_min, smrz_max]`, normalize, add 0.01,
and apply the log transform `0.95 * ln(norm * 100) / ln(101) + 0.05`.
`lg` stands for `np.log`. -/
def rescale_smrz (lg : ℚ → ℚ) (smrz0 : List (List Val)) (smrz_min : List Val)
    (smrz_max : Val) : List (List Val) :=
  smrz0.map (fun row =>
    List.zipWith
      (fun x mn =>
        let x1 := if vlt x mn then mn else x
        let x2 := if vgt x1 smrz_max then smrz_max else x1
        let norm := vadd (vdiv (vsub x2 mn) (vsub smrz_max mn)) (some 0.01)
        vadd (vmul (some 0.95)
          (vdiv (vlift lg (vmul norm (some 100))) (vlift lg (some 101)))) (some 0.05))
      row smrz_min)

/-- Embeds `TCF.gpp` (src/fieldcarb/models.py lines 265–316).  The five or
six driver fields are time-major (T × N) series; `ft0 = none` models the
5-field call, in which the freeze-thaw state is derived as
`np.where(tmin < 273.15, 0, 1)`.  Root-zone soil moisture is rescaled with
the per-pixel historical minimum of the supplied series; the freeze-thaw
flag becomes a multiplier (`params.ft0` when frozen, 1 otherwise); the three
ramps come from `linear_constraint`; GPP is
`par * fpar * e_mult * LUE`. -/
def TCF.gpp (lg : ℚ → ℚ) (p : VParams) (fpar par tmin vpd smrz0 : List (List Val))
    (ft0 : Option (List (List Val))) : Except String (List (List Val)) := do
  let ftFlags := match ft0 with
    | none => tmin.map (List.map (fun tv => if vlt tv (some 273.15) then some 0 else some 1))
    | some f => f
  let smrz := rescale_smrz lg smrz0 (nanminOverTime smrz0) (some 1)
  let ft := ftFlags.map (fun row =>
    List.zipWith (fun f p0 => if veq f (some 0) then p0 else some 1) row p.ft0)
  let f_tmin ← linear_constraint p.tmin0 p.tmin1 none
  let f_vpd ← linear_constraint p.vpd0 p.vpd1 (some "reversed")
  let f_smrz ← linear_constraint p.smrz0 p.smrz1 none
  let e_mult := zipSeries vmul
    (zipSeries vmul (zipSeries vmul ft (tmin.map f_tmin)) (vpd.map f_vpd))
    (smrz.map f_smrz)
  pure (broadcastParam vmul (zipSeries vmul (zipSeries vmul par fpar) e_mult) p.LUE)

/-! ## Dates, climatology and litterfall -/

/-- A calendar date, reduced to what the model consumes: the year and the
(0-based) day of year. -/
structure SimpleDate where
  year : Int
  doy : Nat
deriving DecidableEq

/-- Mean of a bag of per-pixel rows (`n` pixels); an empty bag gives a row of
NaN. -/
def meanRows (rows : List (List Val)) (n : Nat) : List Val :=
  match rows with
  | [] => List.replicate n none
  | _ =>
    (rows.foldl (List.zipWith vadd) (List.replicate n (some 0))).map
      (fun v => vdiv v (some (rows.length : ℚ)))

/-- Modelled from the spec: `climatology365` is imported from
`fieldcarb.utils` (and `agstack.utils`) but is not present under `src/`.
Per the spec it computes "the mean daily-value cycle of the driver fields"
(a climatological average over a whole number of annual cycles): for each
day of year `d ∈ [0, 365)`, the mean over all supplied time steps whose date
falls on day `d`.  Input is a time-major (T × N) series with its list of
dates; output is a (365 × N) series. -/
def climatology365 (series : List (List Val)) (dates : List SimpleDate) :
    List (List Val) :=
  let n := (series.headD []).length
  (List.range 365).map (fun day =>
    meanRows
      ((series.zip dates).filterMap
        (fun p => if p.2.doy % 365 = day then some p.1 else none)) n)

/-- `np.ndarray.sum(axis = 0)`: sum a stack of per-pixel rows. -/
def sumAxis0 : List (List Val) → List Val
  | [] => []
  | r :: rest => rest.foldl (List.zipWith vadd) r

/-- Embeds the litterfall computation of `fieldcarb`'s `forward_run`
(src/fieldcarb/models.py lines 229–233):
`npp_sum = climatology365(gpp.swapaxes(0, 1), dates).sum(axis = 0)` followed
by `litter = npp_sum / 365`.  NOTE: the source passes `gpp` here — not
`npp` — even though its own comments say "Compute litterfall from the mean
annual NPP sum" and "Litterfall is equal daily fraction of average annual
NPP", and even though the variable receiving it is named `npp_sum`. -/
def forward_litterfall (gpp : List (List Val)) (dates : List SimpleDate) : List Val :=
  (sumAxis0 (climatology365 gpp dates)).map (fun v => vdiv v (some 365))

/-- Embeds the litterfall computation of `agstack`'s `_setup_forward`
(src/agstack/models.py lines 225–230), which passes `npp` (= CUE × GPP) to
the climatology, matching the comments in both sources. -/
def ag_litterfall (npp : List (List Val)) (dates : List SimpleDate) : List Val :=
  (sumAxis0 (climatology365 npp dates)).map (fun v => vdiv v (some 365))

/-! ## Forward run (src/fieldcarb/models.py lines 169–263) -/

/-- The 8-field driver cube of `forward_run`, each field a time-major
(T × N) series, in the fixed order the source unpacks them
(`drivers[0:6]` to `gpp`, `drivers[-2:]` to the soil respiration). -/
structure Cube where
  fpar : List (List Val)
  par : List (List Val)
  tmin : List (List Val)
  vpd : List (List Val)
  smrz : List (List Val)
  ft : List (List Val)
  tsoil : List (List Val)
  smsf : List (List Val)
deriving DecidableEq

@[simp] theorem ebind_ok (x : α) (k : α → Except String β) :
    (Except.ok x >>= k) = k x := rfl

@[simp] theorem ebind_error (e : String) (k : α → Except String β) :
    ((Except.error e : Except String α) >>= k) = Except.error e := rfl

@[simp] theorem epure_def (x : α) : (pure x : Except String α) = Except.ok x := rfl

/-- Resolution of the SOC state at the top of `forward_run`, `rh`, `nee` and
`spin_up`: `soc = state; if soc is None: soc = self.state.soc` — with an
`AttributeError` (a fatal error) when neither is available. -/
def resolve_soc (m : TCF) (state : Option (List (List Val))) :
    Except String (List (List Val)) :=
  match state with
  | some s => Except.ok s
  | none =>
    match m.soc with
    | some s => Except.ok s
    | none => Except.error "TCF instance has no SOC state"

/-- The daily loop of `fieldcarb`'s `forward_run` (lines 244–262): steps over
the per-day (wmult, tmult, npp) triples, applying `fc_step` to the SOC state
and recording `rh_t` and `nee = rh_t.sum(axis=0) - npp[..., t]`.  Returns
the final SOC state, the NEE series and the RH series (time-major). -/
def fc_loop (p : VParams) (litter : List Val) :
    List (List Val × List Val × List Val) → List (List Val) →
      List (List Val) × List (List Val) × List (List (List Val))
  | [], soc => (soc, [], [])
  | (w, t, nppt) :: rest, soc =>
    let st := fc_step p litter w t soc
    let neet := List.zipWith vsub (sumAxis0 st.2) nppt
    let r := fc_loop p litter rest st.1
    (r.1, neet :: r.2.1, st.2 :: r.2.2)

/-- The computational body of `fieldcarb`'s `forward_run` for a resolved SOC
state: litterfall preconditions (lines 217–224), GPP and NPP (lines
226–227), litterfall from the climatology when absent (lines 229–233; note
it uses `gpp`), the precomputed environmental multipliers (lines 238–242)
and the daily loop.  Returns ((nee, gpp, rh), final SOC, litterfall used).
The in-place mutations of the source (`soc[i] += delta` and
`self.constants.add('litterfall', ...)`) are returned explicitly and
committed by the `fc_forward_run` wrapper. -/
def fc_forward_core (ex lg : ℚ → ℚ) (m : TCF) (d : Cube) (soc0 : List (List Val))
    (dates : Option (List SimpleDate)) :
    Except String
      ((List (List Val) × List (List Val) × List (List (List Val))) ×
        List (List Val) × List Val) := do
  let _ok ← (match m.litterfall, dates with
    | none, none =>
      Except.error "Either litterfall must be provided to TCF() or dates must be provided to TCF.forward_run()"
    | none, some ds =>
      if ds.length ≥ 365 ∧ d.fpar.length ≥ 365 then pure ()
      else Except.error "At least 365 daily time steps must be provided to allow computation of annual NPP sum"
    | some _, _ => (pure () : Except String Unit))
  let gpp ← TCF.gpp lg m.params d.fpar d.par d.tmin d.vpd d.smrz (some d.ft)
  let npp := gpp.map (fun row => List.zipWith vmul m.params.CUE row)
  let litter := match m.litterfall, dates with
    | some l, _ => l
    | none, some ds => forward_litterfall gpp ds
    | none, none => []
  let f_smsf ← linear_constraint m.params.smsf0 m.params.smsf1 none
  let tmult := d.tsoil.map (fun row =>
    List.zipWith (fun ts b0 => arrhenius ex ts b0 (some 66.02) (some 227.13))
      row m.params.tsoil)
  let wmult := d.smsf.map f_smsf
  let res := fc_loop m.params litter (zipWith3 (fun a b c => (a, b, c)) wmult tmult npp) soc0
  pure ((res.2.1, gpp, res.2.2), res.1, litter)

/-- Embeds `fieldcarb`'s `TCF.forward_run` (lines 169–263) with the
in-place state effects made explicit: the returned `List (List Val)` after
the outputs is the final SOC state (the content of whichever array the
daily deltas were applied to — the caller-supplied override when one was
given, `state.soc` otherwise), and the returned `TCF` is the model after
the call (litterfall cached when it was computed; `state.soc` replaced only
when no override was supplied). -/
def fc_forward_run (ex lg : ℚ → ℚ) (m : TCF) (d : Cube)
    (state : Option (List (List Val))) (dates : Option (List SimpleDate)) :
    Except String
      ((List (List Val) × List (List Val) × List (List (List Val))) ×
        List (List Val) × TCF) := do
  let soc0 ← resolve_soc m state
  let r ← fc_forward_core ex lg m d soc0 dates
  let m1 := match m.litterfall with
    | some _ => m
    | none => { m with litterfall := some r.2.2 }
  let m2 := match state with
    | some _ => m1
    | none => { m1 with soc := some r.2.1 }
  pure (r.1, r.2.1, m2)

/-- Claim C10: when `forward_run` is called with an explicit SOC override,
the daily deltas land in the caller-supplied array (returned here as the
final-SOC component) and the model's stored `state.soc` is unchanged; the
stored state is replaced by the final SOC exactly when no override is
supplied. -/
theorem fc_forward_run_frame (ex lg : ℚ → ℚ) (m : TCF) (d : Cube)
    (ov : List (List Val)) (dates : Option (List SimpleDate)) :
    (∀ out socF m2,
        fc_forward_run ex lg m d (some ov) dates = Except.ok (out, socF, m2) →
          m2.soc = m.soc) ∧
    (∀ out socF m2,
        fc_forward_run ex lg m d none dates = Except.ok (out, socF, m2) →
          m2.soc = some socF) := by
  constructor
  · intro out socF m2 h
    simp only [fc_forward_run, resolve_soc, ebind_ok] at h
    cases hcore : fc_forward_core ex lg m d ov dates with
    | error e =>
      rw [hcore] at h
      simp at h
    | ok r =>
      rw [hcore] at h
      simp only [ebind_ok, epure_def, Except.ok.injEq, Prod.mk.injEq] at h
      obtain ⟨-, -, hm2⟩ := h
      subst hm2
      cases hlit : m.litterfall <;> simp
  · intro out socF m2 h
    simp only [fc_forward_run, resolve_soc] at h
    cases hsoc : m.soc with
    | none =>
      rw [hsoc] at h
      simp at h
    | some s0 =>
      rw [hsoc] at h
      simp only [ebind_ok] at h
      cases hcore : fc_forward_core ex lg m d s0 dates with
      | error e =>
        rw [hcore] at h
        simp at h
      | ok r =>
        rw [hcore] at h
        simp only [ebind_ok, epure_def, Except.ok.injEq, Prod.mk.injEq] at h
        obtain ⟨-, hsocF, hm2⟩ := h
        subst hm2
        subst hsocF
        cases hlit : m.litterfall <;> simp

/-- Concrete single-pixel parameter set for witness runs (valid ramp bounds,
zero light-use efficiency and zero decay rates so the outputs are zero). -/
def pW : VParams :=
  { LUE := [some 0], tmin0 := [some 0], tmin1 := [some 1],
    vpd0 := [some 0], vpd1 := [some 1], smrz0 := [some 0], smrz1 := [some 1],
    ft0 := [some 1], CUE := [some (1/2)], tsoil := [some 1],
    smsf0 := [some 0], smsf1 := [some 1],
    decay_rates := [[some 0], [some 0], [some 0]],
    f_structural := [some (1/2)], f_metabolic := [some (1/2)] }

/-- Concrete model instance for witness runs: litterfall supplied, SOC state
present. -/
def mW : TCF :=
  { params := pW, soc := some [[some 100], [some 200], [some 300]],
    litterfall := some [some 0] }

/-- Concrete one-pixel, one-day driver cube for witness runs. -/
def cubeW : Cube :=
  { fpar := [[some 1]], par := [[some 1]], tmin := [[some 1]], vpd := [[some 0]],
    smrz := [[some 1]], ft := [[some 1]], tsoil := [[some 1]], smsf := [[some 1]] }

/-- Empty (zero-time-step) driver cube: a degenerate but successful
forward-run input that exercises no arithmetic. -/
def cube0 : Cube :=
  { fpar := [], par := [], tmin := [], vpd := [],
    smrz := [], ft := [], tsoil := [], smsf := [] }

deriving instance DecidableEq for Except

instance :
    DecidableEq ((List (List Val) × List (List Val) × List (List (List Val))) ×
      List (List Val) × TCF) :=
  instDecidableEqProd

/-- Witness for C10: a concrete successful forward run with an explicit SOC
override; the model's stored state is untouched. -/
theorem fc_forward_run_frame_witness :
    fc_forward_run (fun _ => 1) (fun _ => 1) mW cube0
        (some [[some 100], [some 200], [some 300]]) none =
      Except.ok (([], [], []), [[some 100], [some 200], [some 300]], mW) ∧
    mW.soc = mW.soc :=
by
  have h : fc_forward_run (fun _ => 1) (fun _ => 1) mW cube0
      (some [[some 100], [some 200], [some 300]]) none =
      Except.ok (([], [], []), [[some 100], [some 200], [some 300]], mW) := by
    rfl
  exact ⟨h,
    (fc_forward_run_frame (fun _ => 1) (fun _ => 1) mW cube0
      [[some 100], [some 200], [some 300]] none).1
      ([], [], []) [[some 100], [some 200], [some 300]] mW h⟩

/-! ## Claim C5: the litterfall computation -/

/-- Parameter set for the litterfall scenario: `LUE = 2`, `CUE = 1/2`. -/
def pY : VParams :=
  { LUE := [some 2], tmin0 := [some 0], tmin1 := [some 1],
    vpd0 := [some 0], vpd1 := [some 1], smrz0 := [some 0], smrz1 := [some 1],
    ft0 := [some 1], CUE := [some (1/2)], tsoil := [some 1],
    smsf0 := [some 0], smsf1 := [some 1],
    decay_rates := [[some 0], [some 0], [some 0]],
    f_structural := [some (1/2)], f_metabolic := [some (1/2)] }

/-- Model with no litterfall supplied at construction. -/
def mY : TCF :=
  { params := pY, soc := some [[some 100], [some 200], [some 300]],
    litterfall := none }

/-- One calendar year of daily dates (day-of-year 0 … 364). -/
def dates365 : List SimpleDate := (List.range 365).map (fun d => ⟨2023, d⟩)

theorem headD_replicate (n : Nat) (x d : α) :
    (List.replicate n x).headD d = if n = 0 then d else x := by
  cases n <;> rfl

theorem zip_replicate_left (a : α) (l : List β) (n : Nat) (h : l.length = n) :
    List.zip (List.replicate n a) l = l.map (fun b => (a, b)) := by
  subst h
  induction l with
  | nil => rfl
  | cons b bs ih => simpa [List.replicate_succ] using ih

theorem filterMap_range365_none (day : Nat) (a : α) :
    ∀ n, n ≤ day → n ≤ 365 →
      (List.range n).filterMap (fun d => if d % 365 = day then some a else none) = [] := by
  intro n
  induction n with
  | zero => intro _ _; rfl
  | succ k ih =>
    intro h1 h2
    rw [List.range_succ, List.filterMap_append, ih (by omega) (by omega)]
    have hk : k % 365 = k := Nat.mod_eq_of_lt (by omega)
    simp [hk, Nat.ne_of_lt (show k < day from by omega)]

theorem filterMap_range365_singleton (day : Nat) (a : α) :
    ∀ n, day < n → n ≤ 365 →
      (List.range n).filterMap (fun d => if d % 365 = day then some a else none) = [a] := by
  intro n
  induction n with
  | zero => intro h _; omega
  | succ k ih =>
    intro h1 h2
    rw [List.range_succ, List.filterMap_append]
    by_cases hd : day < k
    · rw [ih hd (by omega)]
      have hk : k % 365 = k := Nat.mod_eq_of_lt (by omega)
      simp [hk, Nat.ne_of_gt (show day < k from hd)]
    · have hdk : day = k := by omega
      rw [filterMap_range365_none day a k (by omega) (by omega)]
      have hk : k % 365 = k := Nat.mod_eq_of_lt (by omega)
      simp [hk, hdk]

theorem meanRows_single (g : ℚ) : meanRows [[some g]] 1 = [some g] := by
  unfold meanRows
  norm_num [List.foldl, List.zipWith, vadd, vdiv]

theorem map_const_eq_replicate (l : List α) (c : β) :
    l.map (fun _ => c) = List.replicate l.length c := by
  induction l with
  | nil => rfl
  | cons a as ih => simp [ih, List.replicate_succ]

/-- The 365-day climatology of a constant daily series over one calendar
year is that constant series. -/
theorem clim_replicate (g : ℚ) :
    climatology365 (List.replicate 365 [some g]) dates365 = List.replicate 365 [some g] := by
  unfold climatology365
  rw [headD_replicate]
  norm_num
  have hlen : dates365.length = 365 := by simp [dates365]
  rw [zip_replicate_left [some g] dates365 365 hlen]
  have hmap : ∀ day ∈ List.range 365,
      (fun day => meanRows
        (List.filterMap (fun p => if p.2.doy % 365 = day then some p.1 else none)
          (List.map (fun b => ([some g], b)) dates365)) 1) day = [some g] := by
    intro day hday
    have hday365 : day < 365 := List.mem_range.mp hday
    show meanRows
      (List.filterMap (fun p => if p.2.doy % 365 = day then some p.1 else none)
        (List.map (fun b => ([some g], b)) dates365)) 1 = [some g]
    rw [List.filterMap_map]
    have hcomp : ((fun p : List Val × SimpleDate =>
        if p.2.doy % 365 = day then some p.1 else none) ∘
          (fun b : SimpleDate => ([some g], b))) =
        (fun b : SimpleDate => if b.doy % 365 = day then some [some g] else none) := by
      funext b
      rfl
    rw [hcomp]
    unfold dates365
    rw [List.filterMap_map]
    have hcomp2 : ((fun b : SimpleDate => if b.doy % 365 = day then some [some g] else none) ∘
        (fun d : Nat => (⟨2023, d⟩ : SimpleDate))) =
        (fun d : Nat => if d % 365 = day then some [some g] else none) := by
      funext d
      rfl
    rw [hcomp2]
    rw [filterMap_range365_singleton day [some g] 365 hday365 (by omega)]
    exact meanRows_single g
  rw [List.map_congr_left hmap]
  rw [map_const_eq_replicate]
  simp

theorem foldl_vadd_replicate (r : ℚ) :
    ∀ (k : Nat) (q : ℚ),
      List.foldl (List.zipWith vadd) [some q] (List.replicate k [some r]) =
        [some (q + k * r)] := by
  intro k
  induction k with
  | zero => intro q; norm_num
  | succ n ih =>
    intro q
    rw [List.replicate_succ, List.foldl_cons]
    show List.foldl (List.zipWith vadd) [vadd (some q) (some r)] (List.replicate n [some r]) = _
    rw [vadd_some, ih (q + r)]
    congr 2
    push_cast
    ring

theorem sumAxis0_replicate (g : ℚ) :
    sumAxis0 (List.replicate 365 [some g]) = [some (365 * g)] := by
  show List.foldl (List.zipWith vadd) [some g] (List.replicate 364 [some g]) = _
  rw [foldl_vadd_replicate g 364 g]
  congr 2
  push_cast
  ring

/-- The litterfall derived from a constant daily series over one calendar
year is exactly that constant daily value. -/
theorem fc_litter_of_constant (g : ℚ) :
    forward_litterfall (List.replicate 365 [some g]) dates365 = [some g] := by
  unfold forward_litterfall
  rw [clim_replicate, sumAxis0_replicate]
  show [vdiv (some (365 * g)) (some 365)] = [some g]
  rw [vdiv_some]
  norm_num

/-- `agstack`'s litterfall computation has the same formula; only its call
site differs (it receives `npp`, not `gpp`). -/
theorem ag_litterfall_eq_formula : ag_litterfall = forward_litterfall := rfl

/-- Claim C5 (evidence for the code bug): `fieldcarb`'s `forward_run`
computes litterfall from the GPP climatology even though its own comments
say "mean annual NPP" and its sibling implementation (`agstack`, whose
`_setup_forward` receives `npp`) uses NPP.  For a constant scenario with
GPP = 2 g C m⁻² day⁻¹ every day and CUE = 1/2: the fieldcarb formula
applied to the gpp series yields a litterfall of 2 (first conjunct), the
NPP series for the same run is constant 1 (second conjunct, `CUE * gpp` as
`forward_run` computes it with `pY`'s `CUE = 1/2`), the NPP-based
litterfall the claim describes is 1 (third conjunct), and the two disagree
(final conjunct).  The error conjuncts confirm the claim's precondition
half: with no litterfall at construction, the run aborts when no dates are
supplied, and when fewer than 365 steps are supplied. -/
theorem fc_litterfall_from_gpp_not_npp :
    forward_litterfall (List.replicate 365 [some 2]) dates365 = [some 2] ∧
    (List.replicate 365 [some (2:ℚ)]).map (fun row => List.zipWith vmul pY.CUE row) =
      List.replicate 365 [some 1] ∧
    ag_litterfall (List.replicate 365 [some 1]) dates365 = [some 1] ∧
    ¬ ((some (2:ℚ) : Val) = some (1:ℚ)) ∧
    isOkB (fc_forward_core (fun _ => 1) (fun _ => 1) mY cube0
      [[some 100], [some 200], [some 300]] none) = false ∧
    isOkB (fc_forward_core (fun _ => 1) (fun _ => 1) mY cube0
      [[some 100], [some 200], [some 300]] (some [⟨2023, 0⟩])) = false := by
  refine ⟨fc_litter_of_constant 2, ?_, ?_, ?_, ?_, ?_⟩
  · rw [List.map_replicate]
    congr 1
    show [vmul (some (1/2)) (some 2)] = [some 1]
    rw [vmul_some]
    norm_num
  · rw [ag_litterfall_eq_formula]
    exact fc_litter_of_constant 1
  · intro h
    rw [Option.some.injEq] at h
    norm_num at h
  · rfl
  · rfl

/-! ## Construction (`TCF.__init__`, src/fieldcarb/models.py lines 75–125) -/

/-- A value supplied in the parameter table: a Python scalar, a Python
list/tuple (1-D), or a 2-D NumPy array keyed by land-cover class.  The
scalar and 1-D cases raise `TypeError` on `value[:, pft]` in the source and
take the `np.array([value])` fallback path. -/
inductive PyVal where
  | scalar (q : ℚ)
  | list1 (xs : List ℚ)
  | arr2 (rows : List (List ℚ))
deriving DecidableEq

/-- Shape-carrying result of vectorization: a 1-D or a 2-D array. -/
inductive NDArr where
  | one (xs : List ℚ)
  | two (xss : List (List ℚ))
deriving DecidableEq

/-- `TCF.required_parameters` (src/fieldcarb/models.py lines 75–79). -/
def required_parameters : List String :=
  ["LUE", "tmin0", "tmin1", "vpd0", "vpd1", "smrz0", "smrz1", "ft0",
   "CUE", "tsoil", "smsf0", "smsf1", "decay_rates", "f_structural",
   "f_metabolic"]

/-- Vectorization of one parameter-table entry against the land-cover map
(the loop body of `__init__`, lines 112–125): `value[:, pft]` when the value
is a 2-D array (`TypeError` fallback `np.array([value])` otherwise), the
`decay_rates` special case reshaping a `(1, 3)` result to `(3, 1)`, and the
`swapaxes(0, 1)` applied to other 2-D results whose first axis is 1. -/
def vectorize_param (key : String) (v : PyVal) (pft : List Nat) : NDArr :=
  match v with
  | .scalar q => NDArr.one [q]
  | .list1 xs =>
    if key = "decay_rates" then
      if xs.length = 3 then NDArr.two (xs.map (fun x => [x]))
      else NDArr.two [xs]
    else NDArr.two (xs.map (fun x => [x]))
  | .arr2 rows =>
    let p := rows.map (fun r => pft.map (fun c => r.getD c 0))
    if key = "decay_rates" then
      if rows.length = 1 ∧ pft.length = 3 then NDArr.two ((p.headD []).map (fun x => [x]))
      else NDArr.two p
    else if rows.length = 1 then NDArr.two ((p.headD []).map (fun x => [x]))
    else NDArr.two p

/-- The model record produced by construction: the land-cover map, the
vectorized parameters actually stored (in insertion order), the optional SOC
state and the optional litterfall. -/
structure TCFRaw where
  pft : List Nat
  params : List (String × NDArr)
  soc : Option (List (List ℚ))
  litterfall : Option (List ℚ)
deriving DecidableEq

/-- Embeds `TCF.__init__` (src/fieldcarb/models.py lines 85–125): the SOC
state, when supplied, must have exactly 3 pools (a fatal assert); the
parameter loop SKIPS keys not in `required_parameters` and vectorizes the
rest — there is no check that every required key is present. -/
def tcf_init (params : List (String × PyVal)) (land_cover_map : List Nat)
    (state : Option (List (List ℚ))) (litterfall : Option (List ℚ)) :
    Except String TCFRaw := do
  let _ok ← (match state with
    | some s =>
      if s.length = 3 then (pure () : Except String Unit)
      else Except.error "Expected one state value for each SOC pool"
    | none => (pure () : Except String Unit))
  let ps := params.foldl
    (fun acc kv =>
      if kv.1 ∈ required_parameters then
        acc ++ [(kv.1, vectorize_param kv.1 kv.2 land_cover_map)]
      else acc) []
  pure { pft := land_cover_map, params := ps, soc := state, litterfall := litterfall }

/-- Counterexample for claim C3: construction with an EMPTY parameter
table — every required parameter missing — succeeds.  `__init__` has no
missing-required-key check; the failure surfaces only at first parameter
use (an `AttributeError` on `self.params`). -/
theorem tcf_init_empty_params_ok :
    isOkB (tcf_init [] [7] none none) = true := rfl

/-- Claim C3 (amended): unknown parameter keys are ignored (dropping a
non-required entry leaves the construction result unchanged), but a missing
required key is NOT a fatal construction error: construction succeeds, with
the missing parameter simply absent from the stored table (the third
conjunct: the empty table yields an empty vectorized-parameter list). -/
theorem tcf_init_unknown_ignored_missing_ok :
    (∀ (k : String) (v : PyVal) (rest : List (String × PyVal)) (lc : List Nat)
        (st : Option (List (List ℚ))) (lit : Option (List ℚ)),
      ¬ k ∈ required_parameters →
        tcf_init ((k, v) :: rest) lc st lit = tcf_init rest lc st lit) ∧
    (∀ (lc : List Nat) (lit : Option (List ℚ)),
      isOkB (tcf_init [] lc none lit) = true) ∧
    (∀ (lc : List Nat) (lit : Option (List ℚ)) (r : TCFRaw),
      tcf_init [] lc none lit = Except.ok r → r.params = []) := by
  refine ⟨?_, fun lc lit => rfl, fun lc lit r h => ?_⟩
  · intro k v rest lc st lit hk
    unfold tcf_init
    have hfold : List.foldl
        (fun acc kv =>
          if kv.1 ∈ required_parameters then
            acc ++ [(kv.1, vectorize_param kv.1 kv.2 lc)]
          else acc) [] ((k, v) :: rest) =
        List.foldl
          (fun acc kv =>
            if kv.1 ∈ required_parameters then
              acc ++ [(kv.1, vectorize_param kv.1 kv.2 lc)]
            else acc) [] rest := by
      rw [List.foldl_cons]
      simp [hk]
    rw [hfold]
  · have : tcf_init [] lc none lit =
        Except.ok { pft := lc, params := [], soc := none, litterfall := lit } := rfl
    rw [this, Except.ok.injEq] at h
    rw [← h]

/-- Witness for the amended C3: the unknown key `"albedo"` is skipped. -/
theorem tcf_init_unknown_ignored_missing_ok_witness :
    (¬ "albedo" ∈ required_parameters) ∧
    tcf_init [("albedo", PyVal.scalar 1)] [7] none none = tcf_init [] [7] none none :=
  ⟨by decide,
    tcf_init_unknown_ignored_missing_ok.1 "albedo" (PyVal.scalar 1) [] [7] none none
      (by decide)⟩

/-! ## `agstack`'s forward run and spin-up (src/agstack/models.py) -/

/-- The daily loop of `agstack`'s `forward_run` (lines 377–399): as
`fc_loop` but with the NaN guard on the deltas (`ag_step`) and the
`dynamic_litter` option, under which the day's litterfall is that day's NPP
(line 381). -/
def ag_loop (p : VParams) (litter : List Val) (dyn : Bool) :
    List (List Val × List Val × List Val) → List (List Val) →
      List (List Val) × List (List Val) × List (List (List Val))
  | [], soc => (soc, [], [])
  | (w, t, nppt) :: rest, soc =>
    let litt := if dyn then nppt else litter
    let st := ag_step p litt w t soc
    let neet := List.zipWith vsub (sumAxis0 st.2) nppt
    let r := ag_loop p litter dyn rest st.1
    (r.1, neet :: r.2.1, st.2 :: r.2.2)

/-- The computational body of `agstack`'s `forward_run`
(`_setup_forward`, lines 209–237, plus the loop): as `fc_forward_core` but
the litterfall comes from the NPP climatology (line 227) and the loop
carries the NaN guard and the `dynamic_litter` flag. -/
def ag_forward_core (ex lg : ℚ → ℚ) (m : TCF) (d : Cube) (soc0 : List (List Val))
    (dates : Option (List SimpleDate)) (dyn : Bool) :
    Except String
      ((List (List Val) × List (List Val) × List (List (List Val))) ×
        List (List Val) × List Val) := do
  let _ok ← (match m.litterfall, dates with
    | none, none =>
      Except.error "Either litterfall must be provided to TCF() or dates must be provided at runtime"
    | none, some ds =>
      if ds.length ≥ 365 ∧ d.fpar.length ≥ 365 then pure ()
      else Except.error "At least 365 daily time steps must be provided to allow computation of annual NPP sum"
    | some _, _ => (pure () : Except String Unit))
  let gpp ← TCF.gpp lg m.params d.fpar d.par d.tmin d.vpd d.smrz (some d.ft)
  let npp := gpp.map (fun row => List.zipWith vmul m.params.CUE row)
  let litter := match m.litterfall, dates with
    | some l, _ => l
    | none, some ds => ag_litterfall npp ds
    | none, none => []
  let f_smsf ← linear_constraint m.params.smsf0 m.params.smsf1 none
  let tmult := d.tsoil.map (fun row =>
    List.zipWith (fun ts b0 => arrhenius ex ts b0 (some 66.02) (some 227.13))
      row m.params.tsoil)
  let wmult := d.smsf.map f_smsf
  let res := ag_loop m.params litter dyn
    (zipWith3 (fun a b c => (a, b, c)) wmult tmult npp) soc0
  pure ((res.2.1, gpp, res.2.2), res.1, litter)

/-- Embeds `agstack`'s `TCF.forward_run` (lines 316–400) with the in-place
effects made explicit, as in `fc_forward_run`. -/
def ag_forward_run (ex lg : ℚ → ℚ) (m : TCF) (d : Cube)
    (state : Option (List (List Val))) (dates : Option (List SimpleDate))
    (dyn : Bool) :
    Except String
      ((List (List Val) × List (List Val) × List (List (List Val))) ×
        List (List Val) × TCF) := do
  let soc0 ← resolve_soc m state
  let r ← ag_forward_core ex lg m d soc0 dates dyn
  let m1 := match m.litterfall with
    | some _ => m
    | none => { m with litterfall := some r.2.2 }
  let m2 := match state with
    | some _ => m1
    | none => { m1 with soc := some r.2.1 }
  pure (r.1, r.2.1, m2)

/-- `np.nansum(nee, axis = -1)`: the per-pixel sum over the time axis, with
NaN entries contributing zero (the result is always a real number). -/
def nansumTime (nee : List (List Val)) : List ℚ :=
  match nee.map (fun row => row.map (fun v => v.getD 0)) with
  | [] => []
  | r :: rest => rest.foldl (List.zipWith (· + ·)) r

/-- One spin-up cycle (src/agstack/models.py line 543 and 547): run
`forward_run` over the full driver cube with the current SOC array as the
state override (the source mutates that array in place; here the new SOC
and the updated model are threaded), then take the per-pixel annual NEE
sum. -/
def spin_cycle (ex lg : ℚ → ℚ) (d : Cube) (dates : List SimpleDate) :
    TCF × List (List Val) → Except String ((TCF × List (List Val)) × List ℚ) :=
  fun ms => do
    let r ← ag_forward_run ex lg ms.1 d (some ms.2) (some dates) false
    pure ((r.2.2, r.2.1), nansumTime r.1.1)

/-- The comparison cycles of `spin_up` (lines 542–554, steps 1 …
`max_steps` − 1): each cycle records `nee_last - nee_sum` and the loop
breaks as soon as every pixel's absolute difference is below the threshold.
The source preallocates a NaN-filled `(N × max_steps)` tolerance array and
fills one column per comparison cycle; the embedding returns the list of
filled columns. -/
def spin_up_loop {σ : Type} (cycle : σ → Except String (σ × List ℚ)) (threshold : ℚ) :
    Nat → σ → List ℚ → Except String (σ × List (List ℚ))
  | 0, st, _ => Except.ok (st, [])
  | n+1, st, neeLast => do
    let c ← cycle st
    let diff := List.zipWith (fun a b => a - b) neeLast c.2
    if diff.all (fun x => |x| < threshold) then Except.ok (c.1, [diff])
    else do
      let r ← spin_up_loop cycle threshold n c.1 c.2
      Except.ok (r.1, diff :: r.2)

/-- Embeds `TCF.spin_up` (src/agstack/models.py lines 496–563): resolve the
SOC state, run cycle 0 (which only seeds `nee_last`), then the comparison
loop for the remaining `max_steps - 1` cycles.  The source also assembles a
365-day climatology of the drivers (lines 536–539) but never uses it, and
passes the raw `drivers` to `forward_run`; the dead computation is omitted
here. -/
def TCF.spin_up (ex lg : ℚ → ℚ) (m : TCF) (dates : List SimpleDate) (d : Cube)
    (state : Option (List (List Val))) (max_steps : Nat) (threshold : ℚ) :
    Except String ((TCF × List (List Val)) × List (List ℚ)) := do
  let soc ← resolve_soc m state
  match max_steps with
  | 0 => Except.ok ((m, soc), [])
  | n+1 => do
    let c ← spin_cycle ex lg d dates (m, soc)
    spin_up_loop (spin_cycle ex lg d dates) threshold n c.1 c.2

theorem spin_up_loop_props {σ : Type} (cycle : σ → Except String (σ × List ℚ))
    (threshold : ℚ) :
    ∀ (n : Nat) (st : σ) (neeLast : List ℚ) (stF : σ) (hist : List (List ℚ)),
      spin_up_loop cycle threshold n st neeLast = Except.ok (stF, hist) →
        hist.length ≤ n ∧
        (hist = [] → n = 0) ∧
        (∀ i (hi : i + 1 < hist.length),
          ¬ ((hist.get ⟨i, Nat.lt_of_succ_lt hi⟩).all (fun x => |x| < threshold) = true)) ∧
        (∀ dlast, hist.getLast? = some dlast →
          ¬ (dlast.all (fun x => |x| < threshold) = true) → hist.length = n) := by
  intro n
  induction n with
  | zero =>
    intro st neeLast stF hist h
    have h' : Except.ok (st, ([] : List (List ℚ))) =
        (Except.ok (stF, hist) : Except String (σ × List (List ℚ))) := h
    rw [Except.ok.injEq] at h'
    cases h'
    refine ⟨Nat.le_refl 0, fun _ => rfl, ?_, ?_⟩
    · intro i hi
      exact absurd hi (by simp)
    · intro dlast hd
      exact absurd hd (by simp)
  | succ k ih =>
    intro st neeLast stF hist h
    simp only [spin_up_loop] at h
    cases hc : cycle st with
    | error e =>
      rw [hc] at h
      simp only [ebind_error] at h
      exact absurd h (by simp)
    | ok c =>
      rw [hc] at h
      simp only [ebind_ok] at h
      by_cases hall :
          (List.zipWith (fun a b => a - b) neeLast c.2).all (fun x => |x| < threshold) = true
      · rw [if_pos hall] at h
        rw [Except.ok.injEq] at h
        cases h
        refine ⟨by simp, by simp, ?_, ?_⟩
        · intro i hi
          exact absurd hi (by simp)
        · intro dlast hd hnot
          have : dlast = List.zipWith (fun a b => a - b) neeLast c.2 := by
            simpa using hd.symm
          rw [this] at hnot
          exact absurd hall hnot
      · rw [if_neg hall] at h
        cases hrec : spin_up_loop cycle threshold k c.1 c.2 with
        | error e =>
          rw [hrec] at h
          simp only [ebind_error] at h
          exact absurd h (by simp)
        | ok r =>
          obtain ⟨rSt, rHist⟩ := r
          rw [hrec] at h
          simp only [ebind_ok, Except.ok.injEq] at h
          cases h
          obtain ⟨ih1, ih0, ih2, ih3⟩ := ih c.1 c.2 _ _ hrec
          refine ⟨by simpa using Nat.succ_le_succ ih1, by simp, ?_, ?_⟩
          · intro i hi
            cases i with
            | zero => simpa using hall
            | succ j =>
              have hj : j + 1 < rHist.length := by simpa using hi
              simpa using ih2 j hj
          · intro dlast hd hnot
            cases hr2 : rHist with
            | nil =>
              rw [hr2] at ih0
              simp [hr2, ih0 rfl]
            | cons x xs =>
              rw [hr2] at hd
              have hd' : rHist.getLast? = some dlast := by
                rw [hr2]
                simpa [List.getLast?_cons_cons] using hd
              have hlen := ih3 dlast hd' hnot
              rw [hr2] at hlen
              simp only [List.length_cons] at hlen ⊢
              omega

/-- Claim C6: for any threshold and max-cycle bound, the history returned by
`spin_up` has length at most the bound, and the comparison loop halts
exactly at the first cycle at which every pixel's absolute year-over-year
change in the annual NEE sum is below the threshold — every earlier
recorded difference fails the test — or else runs the full max-cycle count
(one seeding cycle plus `max_steps - 1` comparison cycles, so a run whose
last recorded difference still fails the test has recorded exactly
`max_steps - 1` differences). -/
theorem spin_up_halting (ex lg : ℚ → ℚ) (m : TCF) (dates : List SimpleDate)
    (d : Cube) (state : Option (List (List Val))) (max_steps : Nat) (threshold : ℚ)
    (res : (TCF × List (List Val)) × List (List ℚ))
    (h : TCF.spin_up ex lg m dates d state max_steps threshold = Except.ok res) :
    res.2.length ≤ max_steps ∧
    (∀ i (hi : i + 1 < res.2.length),
      ¬ ((res.2.get ⟨i, Nat.lt_of_succ_lt hi⟩).all (fun x => |x| < threshold) = true)) ∧
    (∀ dlast, res.2.getLast? = some dlast →
      ¬ (dlast.all (fun x => |x| < threshold) = true) →
        res.2.length + 1 = max_steps) := by
  unfold TCF.spin_up at h
  cases hr : resolve_soc m state with
  | error e =>
    rw [hr] at h
    simp only [ebind_error] at h
    exact absurd h (by simp)
  | ok soc =>
    rw [hr] at h
    simp only [ebind_ok] at h
    cases max_steps with
    | zero =>
      have h' : Except.ok ((m, soc), ([] : List (List ℚ))) =
          (Except.ok res : Except String ((TCF × List (List Val)) × List (List ℚ))) := h
      rw [Except.ok.injEq] at h'
      rw [← h']
      refine ⟨Nat.le_refl 0, ?_, ?_⟩
      · intro i hi
        exact absurd hi (by simp)
      · intro dlast hd
        exact absurd hd (by simp)
    | succ n =>
      cases hc : spin_cycle ex lg d dates (m, soc) with
      | error e =>
        rw [hc] at h
        simp only [ebind_error] at h
        exact absurd h (by simp)
      | ok c =>
        rw [hc] at h
        simp only [ebind_ok] at h
        obtain ⟨p1, p0, p2, p3⟩ :=
          spin_up_loop_props (spin_cycle ex lg d dates) threshold n c.1 c.2
            res.1 res.2 (h.trans rfl)
        refine ⟨Nat.le_succ_of_le p1, p2, ?_⟩
        intro dlast hd hnot
        rw [p3 dlast hd hnot]

/-- Witness for C6: a concrete spin-up over a zero-pixel driver cube with
litterfall supplied; the first comparison cycle's (empty) difference vector
trivially passes the all-below-threshold test, so the loop halts with one
recorded entry. -/
theorem spin_up_halting_witness :
    TCF.spin_up (fun _ => 1) (fun _ => 1) mW [⟨2023, 0⟩] cube0
        (some [[some 100], [some 200], [some 300]]) 3 1 =
      Except.ok ((mW, [[some 100], [some 200], [some 300]]), [[]]) ∧
    ([[]] : List (List ℚ)).length ≤ 3 :=
  ⟨rfl,
    (spin_up_halting (fun _ => 1) (fun _ => 1) mW [⟨2023, 0⟩] cube0
      (some [[some 100], [some 200], [some 300]]) 3 1
      ((mW, [[some 100], [some 200], [some 300]]), [[]]) rfl).1⟩
